import Mathlib

/-!
Verification of `rest_toolbox` (Django REST framework extensions):
a shallow embedding of `rest_toolbox/optional_fields.py` and
`rest_toolbox/polymorphic.py`, together with theorems about the
field-visibility policy and the polymorphic dispatch protocol.

Python dictionaries are modelled as insertion-ordered association lists,
Python exceptions as `Except`, and the object graph (instances with
attributes) as an explicit heap keyed by object id.
-/

namespace RestToolbox

/-! ## Python dict model: insertion-ordered association lists -/

/-- First-match lookup in an association list; this is both `dict[k]`
(`some`/`none` deciding whether `KeyError` fires) and iteration with
`return` on the first key match. -/
def alookup {α β : Type} [DecidableEq α] : List (α × β) → α → Option β
  | [], _ => Option.none
  | (k, v) :: rest, a => if k = a then some v else alookup rest a

/-- Python `d[k] = v`: overwrite the value in place if the key exists,
otherwise append at the end (dicts preserve insertion order). -/
def dictInsert {α β : Type} [DecidableEq α] : List (α × β) → α → β → List (α × β)
  | [], k, v => [(k, v)]
  | (k1, v1) :: rest, k, v =>
    if k1 = k then (k, v) :: rest
    else (k1, v1) :: dictInsert rest k v

/-- Python `d.update(e)`: fold every entry of `e` into `d`. -/
def dictUpdate {α β : Type} [DecidableEq α] (d : List (α × β)) :
    List (α × β) → List (α × β)
  | [] => d
  | kv :: rest => dictUpdate (dictInsert d kv.1 kv.2) rest

/-! ## External collaborators of the repository (host framework objects)

Modelled after Django REST framework as the spec describes them: a request
exposes `.user` (with `.is_superuser`) and `.query_params`; instances live
in an object heap; `rest_framework.fields.get_attribute` resolves a dotted
attribute path, converting a missing related object (`ObjectDoesNotExist`)
to `None` but letting an ordinary missing attribute raise. -/

/-- A principal: compared by identity, carries the superuser flag. -/
structure User where
  uid : Nat
  is_superuser : Bool
deriving DecidableEq, Repr

/-- A Python runtime value as seen by the visibility filter: `None`,
a principal, an object reference into the heap, or the marker for an
attribute whose access raises `ObjectDoesNotExist`. -/
inductive PyRef where
  | rNone
  | rUser (u : User)
  | rObj (oid : Nat)
  | rDNE
deriving DecidableEq, Repr

/-- The attribute table of the object graph: `(object id, attribute name)`
maps to the stored value. -/
structure Heap where
  attrs : List ((Nat × String) × PyRef)
deriving Repr

def heapLookup (h : Heap) (oid : Nat) (name : String) : Option PyRef :=
  alookup h.attrs (oid, name)

/-- Python exceptions that the embedded code can raise or observe. -/
inductive Exc where
  | attributeError
  | keyError
  | typeError
  | validationError (detail : String)
deriving DecidableEq, Repr

instance {ε α : Type} [DecidableEq ε] [DecidableEq α] : DecidableEq (Except ε α) :=
  fun a b =>
    match a, b with
    | Except.error e, Except.error e' =>
      if h : e = e' then Decidable.isTrue (by rw [h])
      else Decidable.isFalse (by intro hc; injection hc; exact h (by assumption))
    | Except.ok v, Except.ok v' =>
      if h : v = v' then Decidable.isTrue (by rw [h])
      else Decidable.isFalse (by intro hc; injection hc; exact h (by assumption))
    | Except.error _, Except.ok _ => Decidable.isFalse (by intro hc; exact Except.noConfusion hc)
    | Except.ok _, Except.error _ => Decidable.isFalse (by intro hc; exact Except.noConfusion hc)

/-- `rest_framework.fields.get_attribute(instance, attrs)` on an object
graph: walks the dotted path; breaks out early with `None` when the
current value is `None`; a stored `ObjectDoesNotExist` marker is caught
by the utility itself and yields `None`; a genuinely missing attribute
raises (`AttributeError`), and so does attribute access on a
non-object value. -/
def get_attribute (h : Heap) : PyRef → List String → Except Exc PyRef
  | v, [] => Except.ok v
  | v, a :: rest =>
    match v with
    | PyRef.rNone => Except.ok PyRef.rNone
    | PyRef.rObj oid =>
      match heapLookup h oid a with
      | some PyRef.rDNE => Except.ok PyRef.rNone
      | some w => get_attribute h w rest
      | Option.none => Except.error Exc.attributeError
    | _ => Except.error Exc.attributeError

/-- Python `str.split('.')` (splitting on a single-character separator):
`"a.b" ↦ ["a", "b"]`, `"" ↦ [""]`. -/
def splitDotChars : List Char → List Char → List String
  | [], acc => [String.mk acc.reverse]
  | c :: rest, acc =>
    if c = '.' then String.mk acc.reverse :: splitDotChars rest []
    else splitDotChars rest (c :: acc)

def splitDot (s : String) : List String := splitDotChars s.data []

/-- Python `str.lower()`. -/
def pyLower (s : String) : String := String.mk (s.data.map Char.toLower)

/-- The request context object: `.user` and `.query_params`. -/
structure Request where
  user : User
  query_params : List (String × String)

/-- Python truthiness of a serializer's `self.instance` (`None` is falsy;
model instances are objects, hence truthy). -/
def pyTruthy : PyRef → Bool
  | PyRef.rNone => false
  | _ => true

/-! ## `rest_toolbox/optional_fields.py` -/

/-- The serializer's declared `Meta` options; `none` models an absent
attribute (`hasattr` false). -/
structure MetaCfg where
  owner_attr : Option String
  owner_fields : Option (List String)
  optional_fields : Option (List String)

/-- `getattr(meta, 'owner_fields', ())`. -/
def ownerFieldsView (m : MetaCfg) : List String :=
  m.owner_fields.getD []

/-- `getattr(meta, 'optional_fields', ())`. -/
def optionalFieldsView (m : MetaCfg) : List String :=
  m.optional_fields.getD []

/-- A declared field object (opaque to the visibility filter: it is only
passed through to the `show_<field>` override). -/
structure FieldObj where
  tag : Nat
deriving DecidableEq, Repr

/-- A `show_<field>` override method: receives `(instance, field_name,
field)` and returns a boolean or `None`. -/
def ShowFn : Type := PyRef → String → FieldObj → Option Bool

/-- The state of an `OptionalFieldsMixin` serializer during one call:
its `Meta`, the object graph, `self.instance`, the request found in
`self.context`, the fields produced by `super().get_fields()`, and the
`show_<field>` override methods defined on the class (`hasattr` +
`callable` collapse into presence in this table). -/
structure OptSerializer where
  meta : MetaCfg
  heap : Heap
  instance_ : PyRef
  context_request : Option Request
  declared_fields : List (String × FieldObj)
  show_funcs : List (String × ShowFn)

/-- `OptionalFieldsMixin.get_owner_of`.  The `try`/`except KeyError`
block in the source wraps only the two `getattr` lines fetching `Meta`
and `owner_attr`; `getattr` raises `AttributeError` (never `KeyError`)
when `owner_attr` is absent, so that exception escapes, and a failure
inside `get_attribute` is raised outside the `try` block altogether. -/
def OptSerializer.get_owner_of (s : OptSerializer) (obj : PyRef) : Except Exc PyRef :=
  match s.meta.owner_attr with
  | Option.none => Except.error Exc.attributeError
  | some owner_attr =>
    if owner_attr = "*" then Except.ok obj
    else get_attribute s.heap obj (splitDot owner_attr)

/-- `OptionalFieldsMixin.user_is_owner`: superusers short-circuit before
owner resolution; otherwise the user is compared (by identity) with the
resolved owner. -/
def OptSerializer.user_is_owner (s : OptSerializer) (user : User) (obj : PyRef) :
    Except Exc Bool :=
  if user.is_superuser then Except.ok true
  else
    match s.get_owner_of obj with
    | Except.error e => Except.error e
    | Except.ok owner =>
      if PyRef.rUser user = owner then Except.ok true
      else Except.ok false

/-- `OptionalFieldsMixin.allow_field`. -/
def OptSerializer.allow_field (s : OptSerializer) (field_name : String)
    (_field : FieldObj) : Except Exc Bool :=
  -- Do not hide fields that are not owner.
  if field_name ∉ ownerFieldsView s.meta then Except.ok true
  else if s.meta.owner_fields.isNone then Except.ok true
  else
    match s.context_request with
    | Option.none => Except.ok false
    | some req => s.user_is_owner req.user s.instance_

/-- `OptionalFieldsMixin.get_show_field_param`. -/
def get_show_field_param (field_name : String) : String :=
  "show_" ++ field_name ++ "_field"

/-- `OptionalFieldsMixin.show_field`: write cases (falsy `self.instance`)
are never hidden; non-optional fields are never hidden; otherwise a
`show_<field>` override with a non-`None` result decides; otherwise the
`show_<field>_field` query parameter decides; otherwise hidden. -/
def OptSerializer.show_field (s : OptSerializer) (field_name : String)
    (field : FieldObj) : Bool :=
  if ¬ pyTruthy s.instance_ then true
  else if field_name ∉ optionalFieldsView s.meta then true
  else
    match
      (match alookup s.show_funcs ("show_" ++ field_name) with
       | some f => f s.instance_ field_name field
       | Option.none => Option.none)
    with
    | some b => b
    | Option.none =>
      match s.context_request with
      | Option.none => false
      | some req =>
        match alookup req.query_params (get_show_field_param field_name) with
        | Option.none => false
        | some v => ["1", "y", "true"].contains (pyLower v)

/-- The non-`None` verdict of a `show_<field>` override, if any
(the `hasattr`/`callable`/result-is-not-`None` chain in `show_field`). -/
def OptSerializer.overrideVerdict (s : OptSerializer) (field_name : String)
    (field : FieldObj) : Option Bool :=
  match alookup s.show_funcs ("show_" ++ field_name) with
  | some f => f s.instance_ field_name field
  | Option.none => Option.none

/-- Whether the request carries a `show_<field>_field` query parameter
whose value is (case-insensitively) one of `1`, `y`, `true`. -/
def OptSerializer.queryTruthy (s : OptSerializer) (field_name : String) : Bool :=
  match s.context_request with
  | Option.none => false
  | some req =>
    match alookup req.query_params (get_show_field_param field_name) with
    | Option.none => false
    | some v => ["1", "y", "true"].contains (pyLower v)

/-- The loop body of `OptionalFieldsMixin.get_fields`: keep a field iff
`allow_field` and `show_field` both hold; an exception from
`allow_field` aborts the whole enumeration. -/
def OptSerializer.filterFields (s : OptSerializer) :
    List (String × FieldObj) → Except Exc (List (String × FieldObj))
  | [] => Except.ok []
  | nf :: rest =>
    match s.allow_field nf.1 nf.2 with
    | Except.error e => Except.error e
    | Except.ok a =>
      match s.filterFields rest with
      | Except.error e => Except.error e
      | Except.ok rest' =>
        Except.ok (if a && s.show_field nf.1 nf.2 then nf :: rest' else rest')

/-- `OptionalFieldsMixin.get_fields`. -/
def OptSerializer.get_fields (s : OptSerializer) : Except Exc (List (String × FieldObj)) :=
  s.filterFields s.declared_fields

/-! ## `rest_toolbox/polymorphic.py` -/

/-- A concrete Python class (`instance.__class__`), compared by identity. -/
structure PyType where
  tid : Nat
deriving DecidableEq, Repr

/-- A concrete serializer class, compared by identity. -/
structure SerializerCls where
  sid : Nat
deriving DecidableEq, Repr

/-- One entry of a `Types` declaration: the `(class, serializer)` pair
bound to a discriminator name. -/
structure TypeEntry where
  cls : PyType
  serializer : SerializerCls
deriving DecidableEq, Repr

/-- A polymorphic instance: only its runtime class matters to dispatch. -/
structure PyInstance where
  cls : PyType
deriving DecidableEq, Repr

/-- The most recent JSON-ish payload values the router touches: the
discriminator comparison `name == type_value` only succeeds on equal
strings. -/
inductive JVal where
  | vNone
  | vStr (s : String)
  | vNat (n : Nat)
deriving DecidableEq, Repr

/-- A payload dict, as handed to `run_validation`/`to_representation`. -/
abbrev Payload : Type := List (String × JVal)

/-- Python `name.startswith('_')`. -/
def startsWithUnderscore (s : String) : Bool := s.data.head? = some '_'

/-- The loop over `attrs['Types'].__dict__.items()` in
`PolymorphicSerializerMetaclass._get_type_fields`: entries whose name
starts with an underscore are skipped, the rest are assigned into the
accumulated dict in declaration order. -/
def localTypeFieldsAux (acc : List (String × TypeEntry)) :
    List (String × TypeEntry) → List (String × TypeEntry)
  | [] => acc
  | nd :: rest =>
    localTypeFieldsAux
      (if startsWithUnderscore nd.1 then acc else dictInsert acc nd.1 nd.2) rest

def localTypeFields (typesDict : List (String × TypeEntry)) :
    List (String × TypeEntry) :=
  localTypeFieldsAux [] typesDict

/-- `PolymorphicSerializerMetaclass._get_type_fields`: the local `Types`
table (`none` when the class declares no `Types` attribute), then for
each base in `reversed(bases)` possessing `_type_fields` the local
fields are laid over a copy of the parent registry.  `baseTypeFields`
lists the `_type_fields` of exactly those bases that have one, in base
order. -/
def getTypeFields (typesDict : Option (List (String × TypeEntry)))
    (baseTypeFields : List (List (String × TypeEntry))) :
    List (String × TypeEntry) :=
  let fields :=
    match typesDict with
    | Option.none => []
    | some td => localTypeFields td
  baseTypeFields.reverse.foldl (fun fs base => dictUpdate base fs) fields

/-- The per-call state of a `PolymorphicSerializer`: the merged
`_type_fields` registry computed by the metaclass, `self.type_field`
(`'type'` unless `Meta.type_field` overrides it), `self.instance`, and
`self.initial_data` when bound.  (`self.partial` and `self._context`
are forwarded untouched to the concrete constructor and play no role in
dispatch.) -/
structure PolySerializer where
  type_fields : List (String × TypeEntry)
  type_field : String
  instance_ : Option PyInstance
  initial_data : Option Payload

/-- `PolymorphicSerializerMetaclass._get_declared_types`: the dict
comprehension re-keying `_type_fields` by discriminator name. -/
def PolySerializer.declared_types (p : PolySerializer) :
    List (String × TypeEntry) :=
  p.type_fields.foldl (fun acc nv => dictInsert acc nv.1 nv.2) []

/-- `PolymorphicSerializerMetaclass._get_declared_classes`: the dict
comprehension re-keying `_type_fields` by concrete class. -/
def PolySerializer.declared_classes (p : PolySerializer) :
    List (PyType × (String × SerializerCls)) :=
  p.type_fields.foldl (fun acc nv => dictInsert acc nv.2.cls (nv.1, nv.2.serializer)) []

/-- `PolymorphicSerializer.get_serializer_class`: by instance class when
an instance is given; else by the payload's discriminator (a missing
key raises `ValidationError('No type specified.')`); else, and on any
lookup miss, fall through to `None`. -/
def PolySerializer.get_serializer_class (p : PolySerializer) :
    Option PyInstance → Option Payload → Except Exc (Option SerializerCls)
  | some i, _ =>
    match alookup p.declared_classes i.cls with
    | some ns => Except.ok (some ns.2)
    | Option.none => Except.ok Option.none
  | Option.none, some d =>
    -- get_attribute(data, [self.type_field]); a Mapping miss raises KeyError
    match alookup d p.type_field with
    | Option.none => Except.error (Exc.validationError "No type specified.")
    | some tv =>
      match p.declared_types.find? (fun nv => decide (JVal.vStr nv.1 = tv)) with
      | some nv => Except.ok (some nv.2.serializer)
      | Option.none => Except.ok Option.none
  | Option.none, Option.none => Except.ok Option.none

/-- What one concrete serializer class does with the arguments the router
hands it in this call: whether its constructor raises `TypeError` on the
router's `sargs`, and the behaviors of its `run_validation` and
`to_representation`. -/
structure ConcreteBehavior where
  run_validation : Payload → Except Exc Payload
  to_representation : PyInstance → Payload
  init_raises_type_error : Bool

/-- `PolymorphicSerializer.get_serializer`: instantiate the resolved
class; the `try`/`except TypeError` turns both `None(**sargs)` (no
class resolved) and a constructor rejecting its arguments into
`ValidationError('Bad type.')`, while the `No type specified.`
validation error from resolution passes through. -/
def PolySerializer.get_serializer (p : PolySerializer)
    (env : SerializerCls → ConcreteBehavior)
    (inst : Option PyInstance) (data : Option Payload) :
    Except Exc SerializerCls :=
  match p.get_serializer_class inst data with
  | Except.error e => Except.error e
  | Except.ok Option.none => Except.error (Exc.validationError "Bad type.")
  | Except.ok (some c) =>
    if (env c).init_raises_type_error then
      Except.error (Exc.validationError "Bad type.")
    else Except.ok c

/-- The body of `PolymorphicSerializer.run_validation` once `data` is
known: remember `data.get(self.type_field, None)`, delegate to the
resolved concrete serializer's `run_validation`, then write the
remembered discriminator back into the validated dict. -/
def PolySerializer.run_validation_resolved (p : PolySerializer)
    (env : SerializerCls → ConcreteBehavior)
    (data : Payload) : Except Exc Payload :=
  match p.get_serializer env Option.none (some data) with
  | Except.error e => Except.error e
  | Except.ok c =>
    match (env c).run_validation data with
    | Except.error e => Except.error e
    | Except.ok vd =>
      Except.ok (dictInsert vd p.type_field ((alookup data p.type_field).getD JVal.vNone))

/-- `PolymorphicSerializer.run_validation`: when called with the `empty`
sentinel, default to `self.initial_data` (an `AttributeError` when no
data was bound), then run the resolved body. -/
def PolySerializer.run_validation (p : PolySerializer)
    (env : SerializerCls → ConcreteBehavior) :
    Option Payload → Except Exc Payload
  | Option.none =>
    match p.initial_data with
    | Option.none => Except.error Exc.attributeError
    | some d => p.run_validation_resolved env d
  | some data => p.run_validation_resolved env data

/-- `PolymorphicSerializer.to_internal_value`. -/
def PolySerializer.to_internal_value (p : PolySerializer)
    (env : SerializerCls → ConcreteBehavior)
    (envInternal : SerializerCls → Payload → Except Exc Payload)
    (data : Payload) : Except Exc Payload :=
  match p.get_serializer env Option.none (some data) with
  | Except.error e => Except.error e
  | Except.ok c => envInternal c data

/-- `PolymorphicSerializer.to_representation`: delegate to the serializer
resolved from the instance's class, then stamp the output with the
discriminator from `self._declared_classes[instance.__class__][0]`
(a dict subscript, hence `KeyError` on a miss). -/
def PolySerializer.to_representation (p : PolySerializer)
    (env : SerializerCls → ConcreteBehavior)
    (i : PyInstance) : Except Exc Payload :=
  match p.get_serializer env (some i) Option.none with
  | Except.error e => Except.error e
  | Except.ok c =>
    match alookup p.declared_classes i.cls with
    | Option.none => Except.error Exc.keyError
    | some ns =>
      Except.ok (dictInsert ((env c).to_representation i) p.type_field (JVal.vStr ns.1))

/-! ## Concrete scenarios used to instantiate the theorems -/

def userA : User := ⟨1, false⟩

def userSup : User := ⟨2, true⟩

def field0 : FieldObj := ⟨0⟩

def emptyHeap : Heap := ⟨[]⟩

/-- A `show_profile` override whose verdict is always `False`. -/
def showProfileFalse : ShowFn := fun _ _ _ => some false

/-- Read context with a bound instance, an optional `profile` field whose
`show_profile` override says no, and a request explicitly asking for it. -/
def s7 : OptSerializer :=
  { meta := { owner_attr := Option.none, owner_fields := Option.none,
              optional_fields := some ["profile"] }
    heap := emptyHeap
    instance_ := PyRef.rObj 10
    context_request := some { user := userA, query_params := [("show_profile_field", "1")] }
    declared_fields := [("profile", field0)]
    show_funcs := [("show_profile", showProfileFalse)] }

/-- A serializer whose `Meta.owner_attr` is the literal string `self`. -/
def sSelf : OptSerializer :=
  { meta := { owner_attr := some "self", owner_fields := some ["email"],
              optional_fields := Option.none }
    heap := emptyHeap
    instance_ := PyRef.rObj 20
    context_request := Option.none
    declared_fields := [("email", field0)]
    show_funcs := [] }

/-- A serializer using the actual wildcard `*`. -/
def sStar : OptSerializer :=
  { meta := { owner_attr := some "*", owner_fields := some ["email"],
              optional_fields := Option.none }
    heap := emptyHeap
    instance_ := PyRef.rObj 30
    context_request := Option.none
    declared_fields := [("email", field0)]
    show_funcs := [] }

/-- Object 40's `owner` attribute is object 41, whose `user` attribute is
`userA`. -/
def heapDot : Heap := ⟨[((40, "owner"), PyRef.rObj 41), ((41, "user"), PyRef.rUser userA)]⟩

def sDot : OptSerializer :=
  { meta := { owner_attr := some "owner.user", owner_fields := some ["email"],
              optional_fields := Option.none }
    heap := heapDot
    instance_ := PyRef.rObj 40
    context_request := Option.none
    declared_fields := [("email", field0)]
    show_funcs := [] }

/-- Bound instance (object 50) with no `owner` attribute at all: attribute
resolution raises. -/
def s9 : OptSerializer :=
  { meta := { owner_attr := some "owner", owner_fields := some ["email"],
              optional_fields := Option.none }
    heap := emptyHeap
    instance_ := PyRef.rObj 50
    context_request := some { user := userA, query_params := [] }
    declared_fields := [("email", field0)]
    show_funcs := [] }

/-- Bound instance (object 60) whose `owner` attribute is a missing
relation (`ObjectDoesNotExist`, reported as `None` by `get_attribute`). -/
def s9b : OptSerializer :=
  { meta := { owner_attr := some "owner", owner_fields := some ["email"],
              optional_fields := Option.none }
    heap := ⟨[((60, "owner"), PyRef.rDNE)]⟩
    instance_ := PyRef.rObj 60
    context_request := some { user := userA, query_params := [] }
    declared_fields := [("email", field0)]
    show_funcs := [] }

/-- Write context: no bound instance, a non-superuser request, and an
owner-restricted `email` field under the `*` wildcard. -/
def s10 : OptSerializer :=
  { meta := { owner_attr := some "*", owner_fields := some ["email"],
              optional_fields := Option.none }
    heap := emptyHeap
    instance_ := PyRef.rNone
    context_request := some { user := userA, query_params := [] }
    declared_fields := [("email", field0)]
    show_funcs := [] }

/-- Superuser request on an owner-restricted field. -/
def s6sup : OptSerializer :=
  { meta := { owner_attr := some "*", owner_fields := some ["email"],
              optional_fields := Option.none }
    heap := emptyHeap
    instance_ := PyRef.rObj 70
    context_request := some { user := userSup, query_params := [] }
    declared_fields := [("email", field0)]
    show_funcs := [] }

/-- Non-owner request: the owner of the instance is the instance itself
(object 70), which is not the requesting user. -/
def s6non : OptSerializer :=
  { meta := { owner_attr := some "*", owner_fields := some ["email"],
              optional_fields := Option.none }
    heap := emptyHeap
    instance_ := PyRef.rObj 70
    context_request := some { user := userA, query_params := [] }
    declared_fields := [("email", field0)]
    show_funcs := [] }

/-- No request context at all. -/
def s6noreq : OptSerializer :=
  { meta := { owner_attr := some "*", owner_fields := some ["email"],
              optional_fields := Option.none }
    heap := emptyHeap
    instance_ := PyRef.rObj 70
    context_request := Option.none
    declared_fields := [("email", field0)]
    show_funcs := [] }

def tableT : PyType := ⟨0⟩

def couchT : PyType := ⟨1⟩

def ser0 : SerializerCls := ⟨0⟩

def ser1 : SerializerCls := ⟨1⟩

/-- The `FurnitureSerializer` example registry from the module docstring:
`table -> (Table, TableSerializer)`, `couch -> (Couch, CouchSerializer)`. -/
def poly1 : PolySerializer :=
  { type_fields := [("table", ⟨tableT, ser0⟩), ("couch", ⟨couchT, ser1⟩)]
    type_field := "type"
    instance_ := Option.none
    initial_data := Option.none }

def inst0 : PyInstance := ⟨tableT⟩

/-- Concrete serializers that validate to the input unchanged and
represent every instance as the empty dict. -/
def env0 : SerializerCls → ConcreteBehavior :=
  fun _ => { run_validation := fun d => Except.ok d
             to_representation := fun _ => []
             init_raises_type_error := false }

/-- Concrete serializers whose validated output drops every input key —
in particular the discriminator is not among their fields. -/
def envDrop : SerializerCls → ConcreteBehavior :=
  fun _ => { run_validation := fun _ => Except.ok [("legs", JVal.vNat 4)]
             to_representation := fun _ => []
             init_raises_type_error := false }

/-- Concrete serializers whose constructors reject the router's
arguments with `TypeError`. -/
def envRaise : SerializerCls → ConcreteBehavior :=
  fun _ => { run_validation := fun d => Except.ok d
             to_representation := fun _ => []
             init_raises_type_error := true }

/-! ## Lemmas about the dict model -/

theorem alookup_dictInsert_self {α β : Type} [DecidableEq α]
    (d : List (α × β)) (k : α) (v : β) :
    alookup (dictInsert d k v) k = some v := by
  induction d with
  | nil => simp [dictInsert, alookup]
  | cons kv rest ih =>
    obtain ⟨k1, v1⟩ := kv
    by_cases h : k1 = k
    · simp [dictInsert, h, alookup]
    · simp [dictInsert, h, alookup, ih]

theorem alookup_dictInsert_ne {α β : Type} [DecidableEq α]
    (d : List (α × β)) (k k' : α) (v : β) (h : k' ≠ k) :
    alookup (dictInsert d k v) k' = alookup d k' := by
  have h' : ¬ k = k' := fun hh => h hh.symm
  induction d with
  | nil => simp [dictInsert, alookup, h']
  | cons kv rest ih =>
    obtain ⟨k1, v1⟩ := kv
    by_cases hk : k1 = k
    · subst hk
      simp [dictInsert, alookup, h']
    · simp [dictInsert, hk, alookup, ih]

theorem mem_dictInsert {α β : Type} [DecidableEq α]
    {d : List (α × β)} {k a : α} {v b : β}
    (h : (a, b) ∈ dictInsert d k v) :
    (a, b) ∈ d ∨ (a = k ∧ b = v) := by
  induction d with
  | nil =>
    simp [dictInsert] at h
    exact Or.inr ⟨h.1, h.2⟩
  | cons kv rest ih =>
    obtain ⟨k1, v1⟩ := kv
    by_cases hk : k1 = k
    · simp [dictInsert, hk] at h
      rcases h with h | h
      · exact Or.inr ⟨h.1, h.2⟩
      · exact Or.inl (List.mem_cons_of_mem _ h)
    · simp [dictInsert, hk] at h
      rcases h with h | h
      · exact Or.inl (by simp [h])
      · rcases ih h with h' | h'
        · exact Or.inl (List.mem_cons_of_mem _ h')
        · exact Or.inr h'

theorem mem_of_alookup_eq_some {α β : Type} [DecidableEq α]
    {d : List (α × β)} {k : α} {v : β}
    (h : alookup d k = some v) : (k, v) ∈ d := by
  induction d with
  | nil => simp [alookup] at h
  | cons kv rest ih =>
    obtain ⟨k1, v1⟩ := kv
    by_cases hk : k1 = k
    · subst hk
      simp [alookup] at h
      simp [h]
    · simp [alookup, hk] at h
      exact List.mem_cons_of_mem _ (ih h)

theorem alookup_eq_none_iff {α β : Type} [DecidableEq α]
    (d : List (α × β)) (k : α) :
    alookup d k = Option.none ↔ k ∉ d.map Prod.fst := by
  induction d with
  | nil => simp [alookup]
  | cons kv rest ih =>
    obtain ⟨k1, v1⟩ := kv
    by_cases hk : k1 = k
    · subst hk
      simp [alookup]
    · have hk' : ¬ k = k1 := fun hh => hk hh.symm
      simp [alookup, hk, ih, hk']

theorem dictInsert_of_alookup_none {α β : Type} [DecidableEq α]
    (d : List (α × β)) (k : α) (v : β)
    (h : alookup d k = Option.none) :
    dictInsert d k v = d ++ [(k, v)] := by
  induction d with
  | nil => simp [dictInsert]
  | cons kv rest ih =>
    obtain ⟨k1, v1⟩ := kv
    by_cases hk : k1 = k
    · subst hk; simp [alookup] at h
    · simp [alookup, hk] at h
      simp [dictInsert, hk, ih h]

theorem alookup_append_of_left_none {α β : Type} [DecidableEq α]
    (d e : List (α × β)) (k : α)
    (h : alookup d k = Option.none) :
    alookup (d ++ e) k = alookup e k := by
  induction d with
  | nil => simp
  | cons kv rest ih =>
    obtain ⟨k1, v1⟩ := kv
    by_cases hk : k1 = k
    · subst hk; simp [alookup] at h
    · simp [alookup, hk] at h ⊢
      exact ih h

theorem mem_keys_dictInsert {α β : Type} [DecidableEq α]
    {d : List (α × β)} {k a : α} {v : β}
    (h : a ∈ (dictInsert d k v).map Prod.fst) :
    a ∈ d.map Prod.fst ∨ a = k := by
  induction d with
  | nil => simp [dictInsert] at h; exact Or.inr h
  | cons kv rest ih =>
    obtain ⟨k1, v1⟩ := kv
    by_cases hk : k1 = k
    · subst hk
      simp [dictInsert] at h
      rcases h with h | h
      · exact Or.inr h
      · exact Or.inl (by simp [h])
    · simp [dictInsert, hk] at h
      rcases h with h | h
      · exact Or.inl (by simp [h])
      · rcases ih (by simpa using h) with h' | h'
        · exact Or.inl (by simp at h' ⊢; exact Or.inr h')
        · exact Or.inr h'

theorem nodup_keys_dictInsert {α β : Type} [DecidableEq α]
    (d : List (α × β)) (k : α) (v : β)
    (h : (d.map Prod.fst).Nodup) :
    ((dictInsert d k v).map Prod.fst).Nodup := by
  induction d with
  | nil => simp [dictInsert]
  | cons kv rest ih =>
    obtain ⟨k1, v1⟩ := kv
    rw [List.map_cons, List.nodup_cons] at h
    by_cases hk : k1 = k
    · subst hk
      rw [show dictInsert ((k1, v1) :: rest) k1 v = (k1, v) :: rest from by
        simp [dictInsert]]
      rw [List.map_cons, List.nodup_cons]
      exact h
    · rw [show dictInsert ((k1, v1) :: rest) k v = (k1, v1) :: dictInsert rest k v from by
        simp [dictInsert, hk]]
      rw [List.map_cons, List.nodup_cons]
      refine ⟨fun hcontra => ?_, ih h.2⟩
      rcases mem_keys_dictInsert hcontra with h' | h'
      · exact h.1 h'
      · exact hk h'

/-- A dict comprehension (`foldl` of assignments starting from `{}`)
only contains pairs produced from some element of the input list. -/
theorem mem_foldl_dictInsert {α β γ : Type} [DecidableEq α]
    (key : γ → α) (val : γ → β) (l : List γ) :
    ∀ (acc : List (α × β)) (k : α) (b : β),
      (k, b) ∈ l.foldl (fun a x => dictInsert a (key x) (val x)) acc →
      (k, b) ∈ acc ∨ ∃ x, x ∈ l ∧ key x = k ∧ val x = b := by
  induction l with
  | nil =>
    intro acc k b h
    rw [List.foldl_nil] at h
    exact Or.inl h
  | cons x rest ih =>
    intro acc k b h
    simp only [List.foldl_cons] at h
    rcases ih _ k b h with h' | h'
    · rcases mem_dictInsert h' with h'' | h''
      · exact Or.inl h''
      · exact Or.inr ⟨x, by simp, h''.1.symm ▸ rfl, h''.2.symm ▸ rfl⟩
    · obtain ⟨y, hy, hk, hv⟩ := h'
      exact Or.inr ⟨y, List.mem_cons_of_mem _ hy, hk, hv⟩

/-- Rebuilding a dict with distinct keys entry by entry reproduces it. -/
theorem foldl_dictInsert_eq_append {α β : Type} [DecidableEq α]
    (l : List (α × β)) :
    ∀ acc : List (α × β),
      (∀ kv, kv ∈ l → alookup acc kv.1 = Option.none) →
      (l.map Prod.fst).Nodup →
      l.foldl (fun a e => dictInsert a e.1 e.2) acc = acc ++ l := by
  induction l with
  | nil => intro acc _ _; simp
  | cons kv rest ih =>
    intro acc hnone hnd
    obtain ⟨k, v⟩ := kv
    rw [List.map_cons, List.nodup_cons] at hnd
    have h1 : dictInsert acc k v = acc ++ [(k, v)] :=
      dictInsert_of_alookup_none acc k v (hnone (k, v) (by simp))
    have hx : ∀ kv', kv' ∈ rest → alookup (acc ++ [(k, v)]) kv'.1 = Option.none := by
      intro kv' hkv'
      have hne : ¬ k = kv'.1 := by
        intro hh
        exact hnd.1 (by rw [hh]; exact List.mem_map.mpr ⟨kv', hkv', rfl⟩)
      rw [alookup_append_of_left_none _ _ _ (hnone kv' (List.mem_cons_of_mem _ hkv'))]
      simp [alookup, hne]
    simp only [List.foldl_cons, h1]
    rw [ih (acc ++ [(k, v)]) hx hnd.2]
    simp

theorem declared_types_eq_type_fields (p : PolySerializer)
    (hnd : (p.type_fields.map Prod.fst).Nodup) :
    p.declared_types = p.type_fields := by
  unfold PolySerializer.declared_types
  simpa using foldl_dictInsert_eq_append p.type_fields []
    (by intro kv _; simp [alookup]) hnd

/-- Scanning a distinct-keyed registry for a known member's discriminator
finds exactly that member. -/
theorem find?_discriminator_of_mem
    (tf : List (String × TypeEntry)) (nm : String) (e : TypeEntry)
    (hnd : (tf.map Prod.fst).Nodup) (hmem : (nm, e) ∈ tf) :
    tf.find? (fun nv => decide (JVal.vStr nv.1 = JVal.vStr nm)) = some (nm, e) := by
  induction tf with
  | nil => simp at hmem
  | cons kv rest ih =>
    obtain ⟨k1, v1⟩ := kv
    rw [List.map_cons, List.nodup_cons] at hnd
    by_cases hk : k1 = nm
    · subst hk
      have hv : v1 = e := by
        rcases List.mem_cons.mp hmem with h | h
        · injection h with _ h2
          exact h2.symm
        · exact absurd (List.mem_map_of_mem Prod.fst h) hnd.1
      subst hv
      exact List.find?_cons_of_pos _ (by simp)
    · have hmem' : (nm, e) ∈ rest := by
        rcases List.mem_cons.mp hmem with h | h
        · injection h with h1 _
          exact absurd h1.symm hk
        · exact h
      rw [List.find?_cons_of_neg _ (by simp [hk])]
      exact ih hnd.2 hmem'

/-! ## Lemmas about the visibility filter -/

/-- If the ownership check rejects a field name (for any field object),
no field of that name survives `get_fields`. -/
theorem alookup_filterFields_none (s : OptSerializer) (nm : String)
    (h : ∀ f, s.allow_field nm f = Except.ok false) :
    ∀ l r : List (String × FieldObj),
      s.filterFields l = Except.ok r → alookup r nm = Option.none := by
  intro l
  induction l with
  | nil =>
    intro r hr
    simp only [OptSerializer.filterFields] at hr
    cases hr
    simp [alookup]
  | cons nf rest ih =>
    intro r hr
    simp only [OptSerializer.filterFields] at hr
    cases h1 : s.allow_field nf.1 nf.2 with
    | error e => rw [h1] at hr; cases hr
    | ok a =>
      rw [h1] at hr
      cases h2 : s.filterFields rest with
      | error e => rw [h2] at hr; cases hr
      | ok rest' =>
        rw [h2] at hr
        cases hr
        by_cases hnm : nf.1 = nm
        · have ha : a = false := by
            rw [hnm] at h1
            exact (Except.ok.inj ((h nf.2).symm.trans h1)).symm
          subst ha
          simp only [Bool.false_and, if_false]
          exact ih rest' h2
        · by_cases hkeep : (a && s.show_field nf.1 nf.2) = true
          · simp only [hkeep, if_true, alookup, if_neg hnm]
            exact ih rest' h2
          · simp only [Bool.not_eq_true] at hkeep
            simp only [hkeep, if_false]
            exact ih rest' h2

/-- A declared field that both checks accept survives `get_fields`. -/
theorem mem_filterFields_of_kept (s : OptSerializer) (nm : String) (f : FieldObj)
    (ha : s.allow_field nm f = Except.ok true)
    (hs : s.show_field nm f = true) :
    ∀ l r : List (String × FieldObj), (nm, f) ∈ l →
      s.filterFields l = Except.ok r → (nm, f) ∈ r := by
  intro l
  induction l with
  | nil => intro r hmem _; simp at hmem
  | cons nf rest ih =>
    intro r hmem hr
    simp only [OptSerializer.filterFields] at hr
    cases h1 : s.allow_field nf.1 nf.2 with
    | error e => rw [h1] at hr; cases hr
    | ok a =>
      rw [h1] at hr
      cases h2 : s.filterFields rest with
      | error e => rw [h2] at hr; cases hr
      | ok rest' =>
        rw [h2] at hr
        cases hr
        rcases List.mem_cons.mp hmem with hh | hh
        · subst hh
          rw [ha] at h1
          injection h1 with h1'
          subst h1'
          simp [hs]
        · have hmemr : (nm, f) ∈ rest' := ih rest' hh h2
          by_cases hkeep : (a && s.show_field nf.1 nf.2) = true
          · simp only [hkeep, if_true]
            exact List.mem_cons_of_mem _ hmemr
          · simp only [Bool.not_eq_true] at hkeep
            simp only [hkeep, if_false]
            exact hmemr

theorem owner_fields_isNone_false_of_mem (m : MetaCfg) (nm : String)
    (h : nm ∈ ownerFieldsView m) : m.owner_fields.isNone = false := by
  unfold ownerFieldsView at h
  cases hof : m.owner_fields with
  | none => rw [hof] at h; simp at h
  | some l => simp

/-- Superusers pass the ownership check without owner resolution. -/
theorem allow_field_superuser (s : OptSerializer) (nm : String) (f : FieldObj)
    (req : Request) (hreq : s.context_request = some req)
    (hsu : req.user.is_superuser = true) :
    s.allow_field nm f = Except.ok true := by
  unfold OptSerializer.allow_field OptSerializer.user_is_owner
  by_cases hmem : nm ∈ ownerFieldsView s.meta
  · simp [hmem, owner_fields_isNone_false_of_mem s.meta nm hmem, hreq, hsu]
  · simp [hmem]

/-- Without a request context, an `owner_fields` field fails the check. -/
theorem allow_field_no_request (s : OptSerializer) (nm : String) (f : FieldObj)
    (hreq : s.context_request = Option.none)
    (hof : nm ∈ ownerFieldsView s.meta) :
    s.allow_field nm f = Except.ok false := by
  unfold OptSerializer.allow_field
  simp [hof, owner_fields_isNone_false_of_mem s.meta nm hof, hreq]

/-- A non-superuser whose identity differs from the resolved owner fails
the ownership check. -/
theorem allow_field_non_owner (s : OptSerializer) (nm : String) (f : FieldObj)
    (req : Request) (w : PyRef)
    (hreq : s.context_request = some req)
    (hsu : req.user.is_superuser = false)
    (hof : nm ∈ ownerFieldsView s.meta)
    (hown : s.get_owner_of s.instance_ = Except.ok w)
    (hne : PyRef.rUser req.user ≠ w) :
    s.allow_field nm f = Except.ok false := by
  unfold OptSerializer.allow_field OptSerializer.user_is_owner
  simp [hof, owner_fields_isNone_false_of_mem s.meta nm hof, hreq, hsu, hown, hne]

/-- A field outside `optional_fields` is never hidden by `show_field`. -/
theorem show_field_of_not_optional (s : OptSerializer) (nm : String) (f : FieldObj)
    (h : nm ∉ optionalFieldsView s.meta) : s.show_field nm f = true := by
  unfold OptSerializer.show_field
  by_cases hi : pyTruthy s.instance_
  · simp [hi, h]
  · simp [hi]

/-- On a read context, for an optional field, `show_field` is the
override verdict when there is one, else the query-parameter test. -/
theorem show_field_eq_of_optional (s : OptSerializer) (nm : String) (f : FieldObj)
    (hi : pyTruthy s.instance_ = true)
    (hopt : nm ∈ optionalFieldsView s.meta) :
    s.show_field nm f =
      (match s.overrideVerdict nm f with
       | some b => b
       | Option.none => s.queryTruthy nm) := by
  unfold OptSerializer.show_field OptSerializer.overrideVerdict OptSerializer.queryTruthy
  rw [if_neg (by simp [hi]), if_neg (by simp [hopt])]

/-! ## Lemmas about registry construction -/

theorem alookup_dictUpdate_of_none {α β : Type} [DecidableEq α]
    (e : List (α × β)) :
    ∀ (d : List (α × β)) (k : α), alookup e k = Option.none →
      alookup (dictUpdate d e) k = alookup d k := by
  induction e with
  | nil => intro d k _; rfl
  | cons kv rest ih =>
    intro d k h
    obtain ⟨k1, v1⟩ := kv
    by_cases hk : k1 = k
    · simp [alookup, hk] at h
    · simp only [alookup, if_neg hk] at h
      rw [show dictUpdate d ((k1, v1) :: rest) = dictUpdate (dictInsert d k1 v1) rest
          from rfl]
      rw [ih _ k h]
      exact alookup_dictInsert_ne d k1 k v1 (fun hh => hk hh.symm)

theorem alookup_dictUpdate_of_some {α β : Type} [DecidableEq α]
    (e : List (α × β)) :
    ∀ (d : List (α × β)) (k : α) (v : β),
      (e.map Prod.fst).Nodup → alookup e k = some v →
      alookup (dictUpdate d e) k = some v := by
  induction e with
  | nil => intro d k v _ h; simp [alookup] at h
  | cons kv rest ih =>
    intro d k v hnd h
    obtain ⟨k1, v1⟩ := kv
    rw [List.map_cons, List.nodup_cons] at hnd
    by_cases hk : k1 = k
    · subst hk
      simp only [alookup, if_pos rfl] at h
      injection h with hv
      subst hv
      have hrest : alookup rest k1 = Option.none :=
        (alookup_eq_none_iff rest k1).mpr hnd.1
      rw [show dictUpdate d ((k1, v1) :: rest) = dictUpdate (dictInsert d k1 v1) rest
          from rfl]
      rw [alookup_dictUpdate_of_none rest _ _ hrest]
      exact alookup_dictInsert_self d k1 v1
    · simp only [alookup, if_neg hk] at h
      rw [show dictUpdate d ((k1, v1) :: rest) = dictUpdate (dictInsert d k1 v1) rest
          from rfl]
      exact ih _ k v hnd.2 h

theorem alookup_localTypeFieldsAux_of_none (l : List (String × TypeEntry)) :
    ∀ (acc : List (String × TypeEntry)) (d : String), alookup l d = Option.none →
      alookup (localTypeFieldsAux acc l) d = alookup acc d := by
  induction l with
  | nil => intro acc d _; rfl
  | cons nd rest ih =>
    intro acc d h
    obtain ⟨n1, e1⟩ := nd
    by_cases hk : n1 = d
    · simp [alookup, hk] at h
    · simp only [alookup, if_neg hk] at h
      rw [show localTypeFieldsAux acc ((n1, e1) :: rest)
            = localTypeFieldsAux
                (if startsWithUnderscore (n1, e1).1 then acc
                 else dictInsert acc (n1, e1).1 (n1, e1).2) rest
          from rfl]
      rw [ih _ d h]
      by_cases hu : startsWithUnderscore (n1, e1).1
      · rw [if_pos hu]
      · rw [if_neg hu]
        exact alookup_dictInsert_ne acc n1 d e1 (fun hh => hk hh.symm)

theorem alookup_localTypeFieldsAux_of_mem (l : List (String × TypeEntry)) :
    ∀ (acc : List (String × TypeEntry)) (d : String) (e : TypeEntry),
      (l.map Prod.fst).Nodup → (d, e) ∈ l → startsWithUnderscore d = false →
      alookup (localTypeFieldsAux acc l) d = some e := by
  induction l with
  | nil => intro acc d e _ h _; simp at h
  | cons nd rest ih =>
    intro acc d e hnd hmem hu
    obtain ⟨n1, e1⟩ := nd
    rw [List.map_cons, List.nodup_cons] at hnd
    by_cases hk : n1 = d
    · subst hk
      have he : e1 = e := by
        rcases List.mem_cons.mp hmem with h | h
        · injection h with _ h2
          exact h2.symm
        · exact absurd (List.mem_map.mpr ⟨(n1, e), h, rfl⟩) hnd.1
      subst he
      have hrest : alookup rest n1 = Option.none :=
        (alookup_eq_none_iff rest n1).mpr hnd.1
      rw [show localTypeFieldsAux acc ((n1, e1) :: rest)
            = localTypeFieldsAux
                (if startsWithUnderscore (n1, e1).1 then acc
                 else dictInsert acc (n1, e1).1 (n1, e1).2) rest
          from rfl]
      rw [alookup_localTypeFieldsAux_of_none rest _ n1 hrest]
      rw [if_neg (by rw [show ((n1, e1).1 : String) = n1 from rfl, hu]; exact Bool.false_ne_true)]
      exact alookup_dictInsert_self acc n1 e1
    · have hmem' : (d, e) ∈ rest := by
        rcases List.mem_cons.mp hmem with h | h
        · injection h with h1 _
          exact absurd h1.symm hk
        · exact h
      rw [show localTypeFieldsAux acc ((n1, e1) :: rest)
            = localTypeFieldsAux
                (if startsWithUnderscore (n1, e1).1 then acc
                 else dictInsert acc (n1, e1).1 (n1, e1).2) rest
          from rfl]
      exact ih _ d e hnd.2 hmem' hu

theorem nodup_keys_localTypeFieldsAux (l : List (String × TypeEntry)) :
    ∀ acc : List (String × TypeEntry), (acc.map Prod.fst).Nodup →
      ((localTypeFieldsAux acc l).map Prod.fst).Nodup := by
  induction l with
  | nil => intro acc h; exact h
  | cons nd rest ih =>
    intro acc h
    rw [show localTypeFieldsAux acc (nd :: rest)
          = localTypeFieldsAux
              (if startsWithUnderscore nd.1 then acc else dictInsert acc nd.1 nd.2) rest
        from rfl]
    apply ih
    by_cases hu : startsWithUnderscore nd.1
    · rw [if_pos hu]; exact h
    · rw [if_neg hu]
      exact nodup_keys_dictInsert acc nd.1 nd.2 h

theorem nodup_keys_dictUpdate {α β : Type} [DecidableEq α]
    (e : List (α × β)) :
    ∀ d : List (α × β), (d.map Prod.fst).Nodup →
      ((dictUpdate d e).map Prod.fst).Nodup := by
  induction e with
  | nil => intro d h; exact h
  | cons kv rest ih =>
    intro d h
    exact ih _ (nodup_keys_dictInsert d kv.1 kv.2 h)

/-- The metaclass always produces a registry with pairwise distinct
discriminators (given that each inherited registry has them), justifying
the spec's registry invariant. -/
theorem nodup_keys_getTypeFields
    (typesDict : Option (List (String × TypeEntry)))
    (bases : List (List (String × TypeEntry)))
    (hb : ∀ b ∈ bases, (b.map Prod.fst).Nodup) :
    ((getTypeFields typesDict bases).map Prod.fst).Nodup := by
  unfold getTypeFields
  have hfields :
      ((match typesDict with
        | Option.none => ([] : List (String × TypeEntry))
        | some td => localTypeFields td).map Prod.fst).Nodup := by
    cases typesDict with
    | none => simp
    | some td => exact nodup_keys_localTypeFieldsAux td [] (by simp)
  have hrev : ∀ b ∈ bases.reverse, (b.map Prod.fst).Nodup := by
    intro b hbm
    exact hb b (List.mem_reverse.mp hbm)
  revert hfields hrev
  generalize bases.reverse = l
  generalize (match typesDict with
    | Option.none => ([] : List (String × TypeEntry))
    | some td => localTypeFields td) = fields
  intro hfields hrev
  induction l generalizing fields with
  | nil => exact hfields
  | cons b rest ih =>
    rw [List.foldl_cons]
    exact ih (dictUpdate b fields)
      (nodup_keys_dictUpdate fields b (hrev b (by simp)))
      (fun b' hb' => hrev b' (List.mem_cons_of_mem _ hb'))

/-! ## Claim theorems -/

/-- C1: Round-trip of the Polymorphic Router — for every instance whose
concrete runtime type is registered in the Type Registry (here: in the
class-keyed view, with the registry's discriminators pairwise distinct),
`to_representation` delegates to the registered serializer class, and
resolving a concrete serializer from the produced payload by
discriminator-based lookup (`get_serializer_class` with `data`) yields
that same serializer class. -/
theorem C1_polymorphic_roundtrip (p : PolySerializer)
    (env : SerializerCls → ConcreteBehavior) (i : PyInstance)
    (nm : String) (ser : SerializerCls)
    (hnd : (p.type_fields.map Prod.fst).Nodup)
    (hreg : alookup p.declared_classes i.cls = some (nm, ser)) :
    p.get_serializer_class (some i) Option.none = Except.ok (some ser) ∧
    ∀ rep, p.to_representation env i = Except.ok rep →
      p.get_serializer_class Option.none (some rep) = Except.ok (some ser) := by
  have hfirst : p.get_serializer_class (some i) Option.none = Except.ok (some ser) := by
    unfold PolySerializer.get_serializer_class
    simp only []
    rw [hreg]
  refine ⟨hfirst, ?_⟩
  intro rep hrep
  unfold PolySerializer.to_representation at hrep
  cases hser : p.get_serializer env (some i) Option.none with
  | error e => rw [hser] at hrep; cases hrep
  | ok c =>
    rw [hser] at hrep
    simp only [] at hrep
    rw [hreg] at hrep
    simp only [] at hrep
    have hrepEq : dictInsert ((env c).to_representation i) p.type_field
        (JVal.vStr nm) = rep := Except.ok.inj hrep
    have htf : (nm, (⟨i.cls, ser⟩ : TypeEntry)) ∈ p.type_fields := by
      have hmem : (i.cls, (nm, ser)) ∈ p.declared_classes :=
        mem_of_alookup_eq_some hreg
      have htrans := mem_foldl_dictInsert
        (fun nv : String × TypeEntry => nv.2.cls)
        (fun nv : String × TypeEntry => (nv.1, nv.2.serializer))
        p.type_fields [] i.cls (nm, ser) hmem
      rcases htrans with hfalse | ⟨x, hx, hkey, hval⟩
      · simp at hfalse
      · obtain ⟨xn, xe⟩ := x
        obtain ⟨xcls, xser⟩ := xe
        have hkey' : xcls = i.cls := hkey
        have hval' : (xn, xser) = (nm, ser) := hval
        injection hval' with h1 h2
        subst h1
        subst h2
        subst hkey'
        exact hx
    subst hrepEq
    unfold PolySerializer.get_serializer_class
    simp only []
    rw [alookup_dictInsert_self]
    simp only []
    rw [declared_types_eq_type_fields p hnd]
    rw [find?_discriminator_of_mem p.type_fields nm ⟨i.cls, ser⟩ hnd htf]

/-- Witness for C1 at the docstring registry: serializing a `Table`
instance delegates to `TableSerializer`, and the stamped payload
`{"type": "table"}` resolves back to `TableSerializer`. -/
theorem C1_polymorphic_roundtrip_witness :
    poly1.get_serializer_class (some inst0) Option.none = Except.ok (some ser0) ∧
    poly1.get_serializer_class Option.none (some [("type", JVal.vStr "table")])
      = Except.ok (some ser0) :=
  ⟨(C1_polymorphic_roundtrip poly1 env0 inst0 "table" ser0 (by decide) (by decide)).1,
   (C1_polymorphic_roundtrip poly1 env0 inst0 "table" ser0 (by decide) (by decide)).2
     [("type", JVal.vStr "table")] (by decide)⟩

/-- C2: Discriminator retention — whenever the discriminator is present
in the raw input payload and `run_validation` succeeds (which requires
the discriminator to resolve to a registered concrete serializer), the
validated output holds exactly the raw input's discriminator value,
whatever the resolved concrete serializer's own validation returned. -/
theorem C2_discriminator_retained (p : PolySerializer)
    (env : SerializerCls → ConcreteBehavior) (data vd : Payload) (tv : JVal)
    (hty : alookup data p.type_field = some tv)
    (hrun : p.run_validation env (some data) = Except.ok vd) :
    alookup vd p.type_field = some tv := by
  simp only [PolySerializer.run_validation, PolySerializer.run_validation_resolved] at hrun
  cases hser : p.get_serializer env Option.none (some data) with
  | error e => rw [hser] at hrun; cases hrun
  | ok c =>
    rw [hser] at hrun
    simp only [] at hrun
    cases hval : (env c).run_validation data with
    | error e => rw [hval] at hrun; cases hrun
    | ok vd' =>
      rw [hval] at hrun
      simp only [] at hrun
      have hEq : dictInsert vd' p.type_field ((alookup data p.type_field).getD JVal.vNone)
          = vd := Except.ok.inj hrun
      subst hEq
      rw [hty, Option.getD_some]
      exact alookup_dictInsert_self vd' p.type_field tv

/-- Witness for C2: validating `{"type": "table", "legs": 4}` through a
concrete serializer that drops every input field (so the discriminator
is not among its fields) still returns `"type": "table"` unchanged. -/
theorem C2_discriminator_retained_witness :
    alookup [("legs", JVal.vNat 4), ("type", JVal.vStr "table")] "type"
      = some (JVal.vStr "table") :=
  C2_discriminator_retained poly1 envDrop
    [("type", JVal.vStr "table"), ("legs", JVal.vNat 4)]
    [("legs", JVal.vNat 4), ("type", JVal.vStr "table")]
    (JVal.vStr "table") (by decide) (by decide)

/-- C3: Missing discriminator — for every input payload without the
discriminator key, polymorphic validation fails with the
`No type specified.` validation error. -/
theorem C3_missing_discriminator (p : PolySerializer)
    (env : SerializerCls → ConcreteBehavior) (data : Payload)
    (hty : alookup data p.type_field = Option.none) :
    p.run_validation env (some data)
      = Except.error (Exc.validationError "No type specified.") := by
  have hcls : p.get_serializer_class Option.none (some data)
      = Except.error (Exc.validationError "No type specified.") := by
    unfold PolySerializer.get_serializer_class
    simp only []
    rw [hty]
  have hser : p.get_serializer env Option.none (some data)
      = Except.error (Exc.validationError "No type specified.") := by
    unfold PolySerializer.get_serializer
    rw [hcls]
  simp only [PolySerializer.run_validation, PolySerializer.run_validation_resolved]
  rw [hser]

/-- Witness for C3: validating the empty payload `{}`. -/
theorem C3_missing_discriminator_witness :
    poly1.run_validation env0 (some [])
      = Except.error (Exc.validationError "No type specified.") :=
  C3_missing_discriminator poly1 env0 [] (by decide)

/-- C4: Bad-type fallthrough — (a) a payload whose discriminator value
matches no registry entry, and (b) an instance whose runtime type
matches no registry entry, make resolution fall through to `None`, and
the instantiation attempt in `get_serializer` raises the `Bad type.`
validation error; (c) the same error is raised when a resolved concrete
serializer's constructor rejects its arguments with a `TypeError`. -/
theorem C4_bad_type (p : PolySerializer) (env : SerializerCls → ConcreteBehavior) :
    (∀ (data : Payload) (tv : JVal),
      alookup data p.type_field = some tv →
      p.declared_types.find? (fun nv => decide (JVal.vStr nv.1 = tv)) = Option.none →
      p.get_serializer env Option.none (some data)
        = Except.error (Exc.validationError "Bad type.")) ∧
    (∀ i : PyInstance,
      alookup p.declared_classes i.cls = Option.none →
      p.get_serializer env (some i) Option.none
        = Except.error (Exc.validationError "Bad type.")) ∧
    (∀ (inst : Option PyInstance) (data : Option Payload) (c : SerializerCls),
      p.get_serializer_class inst data = Except.ok (some c) →
      (env c).init_raises_type_error = true →
      p.get_serializer env inst data
        = Except.error (Exc.validationError "Bad type.")) := by
  refine ⟨?_, ?_, ?_⟩
  · intro data tv hty hfind
    have hcls : p.get_serializer_class Option.none (some data)
        = Except.ok Option.none := by
      unfold PolySerializer.get_serializer_class
      simp only []
      rw [hty]
      simp only []
      rw [hfind]
    unfold PolySerializer.get_serializer
    rw [hcls]
  · intro i hmiss
    have hcls : p.get_serializer_class (some i) Option.none
        = Except.ok Option.none := by
      unfold PolySerializer.get_serializer_class
      simp only []
      rw [hmiss]
    unfold PolySerializer.get_serializer
    rw [hcls]
  · intro inst data c hcls hraise
    unfold PolySerializer.get_serializer
    rw [hcls]
    simp only []
    rw [if_pos hraise]

/-- Witness for C4: an unknown discriminator `chair`, an unregistered
instance class, and a constructor rejecting its arguments, all surface
as `Bad type.`. -/
theorem C4_bad_type_witness :
    poly1.get_serializer env0 Option.none (some [("type", JVal.vStr "chair")])
      = Except.error (Exc.validationError "Bad type.") ∧
    poly1.get_serializer env0 (some ⟨⟨7⟩⟩) Option.none
      = Except.error (Exc.validationError "Bad type.") ∧
    poly1.get_serializer envRaise (some inst0) Option.none
      = Except.error (Exc.validationError "Bad type.") :=
  ⟨(C4_bad_type poly1 env0).1 [("type", JVal.vStr "chair")] (JVal.vStr "chair")
      (by decide) (by decide),
   (C4_bad_type poly1 env0).2.1 ⟨⟨7⟩⟩ (by decide),
   (C4_bad_type poly1 envRaise).2.2 (some inst0) Option.none ser0 (by decide) (by decide)⟩

/-- C5: Registry merge — a subclass `Types` table with pairwise distinct
(non-underscore) discriminators, merged over a parent registry: every
discriminator the subclass declares maps to the subclass's entry (in
particular, it overrides a parent entry under the same discriminator),
while every discriminator the subclass does not declare keeps exactly
the parent's mapping. -/
theorem C5_registry_merge (cdecl ptf : List (String × TypeEntry))
    (hnd : (cdecl.map Prod.fst).Nodup) :
    (∀ (d : String) (e : TypeEntry), (d, e) ∈ cdecl → startsWithUnderscore d = false →
      alookup (getTypeFields (some cdecl) [ptf]) d = some e) ∧
    (∀ d : String, alookup cdecl d = Option.none →
      alookup (getTypeFields (some cdecl) [ptf]) d = alookup ptf d) := by
  have hform : getTypeFields (some cdecl) [ptf]
      = dictUpdate ptf (localTypeFields cdecl) := rfl
  have hndl : ((localTypeFields cdecl).map Prod.fst).Nodup :=
    nodup_keys_localTypeFieldsAux cdecl [] (by simp)
  refine ⟨?_, ?_⟩
  · intro d e hmem hu
    rw [hform]
    exact alookup_dictUpdate_of_some (localTypeFields cdecl) ptf d e hndl
      (alookup_localTypeFieldsAux_of_mem cdecl [] d e hnd hmem hu)
  · intro d hnone
    rw [hform]
    have hlocal : alookup (localTypeFields cdecl) d = Option.none := by
      unfold localTypeFields
      rw [alookup_localTypeFieldsAux_of_none cdecl [] d hnone]
      rfl
    exact alookup_dictUpdate_of_none (localTypeFields cdecl) ptf d hlocal

/-- Witness for C5: child `{table ↦ (Table, ser1), lamp ↦ (Lamp, ser1)}`
over parent `{table ↦ (Table, ser0), couch ↦ (Couch, ser1)}`: `table`
is overridden by the child, `couch` keeps the parent entry. -/
theorem C5_registry_merge_witness :
    alookup (getTypeFields (some [("table", ⟨tableT, ser1⟩), ("lamp", ⟨⟨2⟩, ser1⟩)])
        [[("table", ⟨tableT, ser0⟩), ("couch", ⟨couchT, ser1⟩)]]) "table"
      = some ⟨tableT, ser1⟩ ∧
    alookup (getTypeFields (some [("table", ⟨tableT, ser1⟩), ("lamp", ⟨⟨2⟩, ser1⟩)])
        [[("table", ⟨tableT, ser0⟩), ("couch", ⟨couchT, ser1⟩)]]) "couch"
      = alookup [("table", ⟨tableT, ser0⟩), ("couch", ⟨couchT, ser1⟩)] "couch" :=
  ⟨(C5_registry_merge [("table", ⟨tableT, ser1⟩), ("lamp", ⟨⟨2⟩, ser1⟩)]
      [("table", ⟨tableT, ser0⟩), ("couch", ⟨couchT, ser1⟩)] (by decide)).1
      "table" ⟨tableT, ser1⟩ (by decide) (by decide),
   (C5_registry_merge [("table", ⟨tableT, ser1⟩), ("lamp", ⟨⟨2⟩, ser1⟩)]
      [("table", ⟨tableT, ser0⟩), ("couch", ⟨couchT, ser1⟩)] (by decide)).2
      "couch" (by decide)⟩

/-- C6: Owner-field visibility tri-case — for a field listed in
`owner_fields`: (i) under a request whose user is a superuser, the
ownership check always admits the field, regardless of actual ownership
(and, when the field is not also optional, a declared field of that name
survives `get_fields`); (ii) under a request whose non-superuser user
differs from the resolved owner of the bound instance, the field never
survives `get_fields`; (iii) with no request context in the serializer's
context, the field never survives `get_fields`. -/
theorem C6_owner_field_tricase (s : OptSerializer) (nm : String) (f : FieldObj) :
    (∀ req : Request, s.context_request = some req → req.user.is_superuser = true →
      s.allow_field nm f = Except.ok true ∧
      (nm ∉ optionalFieldsView s.meta → (nm, f) ∈ s.declared_fields →
        ∀ fs, s.get_fields = Except.ok fs → (nm, f) ∈ fs)) ∧
    (∀ (req : Request) (w : PyRef), s.context_request = some req →
      req.user.is_superuser = false → nm ∈ ownerFieldsView s.meta →
      s.get_owner_of s.instance_ = Except.ok w → PyRef.rUser req.user ≠ w →
      ∀ fs, s.get_fields = Except.ok fs → alookup fs nm = Option.none) ∧
    (s.context_request = Option.none → nm ∈ ownerFieldsView s.meta →
      ∀ fs, s.get_fields = Except.ok fs → alookup fs nm = Option.none) := by
  refine ⟨?_, ?_, ?_⟩
  · intro req hreq hsu
    refine ⟨allow_field_superuser s nm f req hreq hsu, ?_⟩
    intro hnopt hdecl fs hfs
    exact mem_filterFields_of_kept s nm f
      (allow_field_superuser s nm f req hreq hsu)
      (show_field_of_not_optional s nm f hnopt) s.declared_fields fs hdecl hfs
  · intro req w hreq hsu hof hown hne fs hfs
    exact alookup_filterFields_none s nm
      (fun f' => allow_field_non_owner s nm f' req w hreq hsu hof hown hne)
      s.declared_fields fs hfs
  · intro hreq hof fs hfs
    exact alookup_filterFields_none s nm
      (fun f' => allow_field_no_request s nm f' hreq hof)
      s.declared_fields fs hfs

/-- Witness for C6 at concrete serializers: the superuser sees `email`
in the filtered fields, while the non-owner request and the missing
request context each produce a filtered field set without `email`. -/
theorem C6_owner_field_tricase_witness :
    ("email", field0) ∈ [("email", field0)] ∧
    alookup ([] : List (String × FieldObj)) "email" = Option.none ∧
    alookup ([] : List (String × FieldObj)) "email" = Option.none :=
  ⟨((C6_owner_field_tricase s6sup "email" field0).1 ⟨userSup, []⟩ rfl rfl).2
      (by decide) (by decide) [("email", field0)] (by decide),
   (C6_owner_field_tricase s6non "email" field0).2.1 ⟨userA, []⟩ (PyRef.rObj 70)
      rfl rfl (by decide) (by decide) (by decide) [] (by decide),
   (C6_owner_field_tricase s6noreq "email" field0).2.2 rfl (by decide) [] (by decide)⟩

/-- C7 counterexample: the claim's exclusion rule, instantiated at a
serializer whose `show_profile` override returns a non-null `False`
while the request carries `show_profile_field=1`, is false: condition
(c) of the claim holds (so the claim says the field is shown), yet
`show_field` hides it, because a non-null override verdict is
conclusive and the query parameter is never consulted. -/
theorem C7_counterexample :
    ¬ (s7.show_field "profile" field0 = false ↔
        (pyTruthy s7.instance_ = true ∧
          s7.overrideVerdict "profile" field0 ≠ some true ∧
          s7.queryTruthy "profile" = false)) := by decide

/-- C7 (amended): for a field listed in `optional_fields`, the field is
hidden by `show_field` iff there is a bound (truthy) instance and
either the `show_<field>` override returns a non-null `False`, or the
override returns no non-null verdict and the request does not carry a
`show_<field>_field` query parameter with value `1`/`y`/`true`
(case-insensitive).  Equivalently, the claim's conditions (a) and (b)
are as stated but the query-parameter condition (c) only applies when
the override yields no verdict. -/
theorem C7_optional_exclusion (s : OptSerializer) (nm : String) (f : FieldObj)
    (hopt : nm ∈ optionalFieldsView s.meta) :
    (s.show_field nm f = false ↔
      (pyTruthy s.instance_ = true ∧
        (s.overrideVerdict nm f = some false ∨
          (s.overrideVerdict nm f = Option.none ∧ s.queryTruthy nm = false)))) := by
  by_cases hi : pyTruthy s.instance_ = true
  · rw [show_field_eq_of_optional s nm f hi hopt]
    cases hv : s.overrideVerdict nm f with
    | none => cases hq : s.queryTruthy nm <;> simp [hi, hv, hq]
    | some b => cases b <;> simp [hi, hv]
  · have hi' : pyTruthy s.instance_ = false := by
      cases hx : pyTruthy s.instance_
      · rfl
      · exact absurd hx hi
    have hsf : s.show_field nm f = true := by
      unfold OptSerializer.show_field
      rw [if_pos (by simp [hi'])]
    simp [hsf, hi']

/-- Witness for C7's amended rule at the override-says-no serializer. -/
theorem C7_optional_exclusion_witness :
    (s7.show_field "profile" field0 = false ↔
      (pyTruthy s7.instance_ = true ∧
        (s7.overrideVerdict "profile" field0 = some false ∨
          (s7.overrideVerdict "profile" field0 = Option.none ∧
            s7.queryTruthy "profile" = false)))) :=
  C7_optional_exclusion s7 "profile" field0 (by decide)

/-- C8 counterexample: the claim's wildcard is wrong.  With
`owner_attr = "self"` the owner is not the instance itself: `"self"` is
treated as an ordinary attribute path, and on an instance without a
`self` attribute resolution raises `AttributeError` instead of
returning the instance. -/
theorem C8_counterexample :
    sSelf.get_owner_of (PyRef.rObj 20) = Except.error Exc.attributeError ∧
    sSelf.get_owner_of (PyRef.rObj 20) ≠ Except.ok (PyRef.rObj 20) := by decide

/-- C8 (amended): the wildcard is `"*"` (not `"self"`): when
`owner_attr = "*"` the resolved owner is the instance itself; for any
other value the owner is resolved by dotted-path attribute traversal
starting at the instance. -/
theorem C8_owner_resolution (s : OptSerializer) (obj : PyRef) (oa : String)
    (hoa : s.meta.owner_attr = some oa) :
    (oa = "*" → s.get_owner_of obj = Except.ok obj) ∧
    (oa ≠ "*" → s.get_owner_of obj = get_attribute s.heap obj (splitDot oa)) := by
  unfold OptSerializer.get_owner_of
  rw [hoa]
  simp only []
  constructor
  · intro h
    rw [if_pos h]
  · intro h
    rw [if_neg h]

/-- Witness for C8's amended rule: the `*` wildcard returns the instance
itself, and a dotted path is resolved by attribute traversal. -/
theorem C8_owner_resolution_witness :
    sStar.get_owner_of (PyRef.rObj 30) = Except.ok (PyRef.rObj 30) ∧
    sDot.get_owner_of (PyRef.rObj 40)
      = get_attribute sDot.heap (PyRef.rObj 40) (splitDot "owner.user") :=
  ⟨(C8_owner_resolution sStar (PyRef.rObj 30) "*" rfl).1 rfl,
   (C8_owner_resolution sDot (PyRef.rObj 40) "owner.user" rfl).2 (by decide)⟩

/-- C9 counterexample: owner-resolution failure does propagate.  On an
instance with no `owner` attribute at all, `get_attribute` raises
`AttributeError`; the `except KeyError` clause in `get_owner_of` wraps
only the `Meta` lookup, so the error escapes `allow_field` and
`get_fields` instead of hiding the field. -/
theorem C9_counterexample :
    s9.allow_field "email" field0 = Except.error Exc.attributeError ∧
    s9.get_fields = Except.error Exc.attributeError := by decide

/-- C9 (amended): only an owner-attribute absence that the resolution
utility itself reports as `None` (a missing related object /
`ObjectDoesNotExist`, or a `None` met along the path) yields "no
owner": the non-superuser requester is then treated as a non-owner and
the owner-restricted field is hidden without any error; an absence
raised as an exception propagates out of the filter (see the
counterexample). -/
theorem C9_null_owner_hides (s : OptSerializer) (nm : String) (f : FieldObj)
    (req : Request) (oa : String)
    (hoa : s.meta.owner_attr = some oa) (hstar : oa ≠ "*")
    (hres : get_attribute s.heap s.instance_ (splitDot oa) = Except.ok PyRef.rNone)
    (hreq : s.context_request = some req)
    (hsu : req.user.is_superuser = false)
    (hof : nm ∈ ownerFieldsView s.meta) :
    s.allow_field nm f = Except.ok false ∧
    (∀ fs, s.get_fields = Except.ok fs → alookup fs nm = Option.none) := by
  have hown : s.get_owner_of s.instance_ = Except.ok PyRef.rNone := by
    unfold OptSerializer.get_owner_of
    rw [hoa]
    simp only []
    rw [if_neg hstar]
    exact hres
  have hallow : ∀ f', s.allow_field nm f' = Except.ok false := fun f' =>
    allow_field_non_owner s nm f' req PyRef.rNone hreq hsu hof hown
      (fun h => PyRef.noConfusion h)
  exact ⟨hallow f,
    fun fs hfs => alookup_filterFields_none s nm hallow s.declared_fields fs hfs⟩

/-- Witness for C9's amended rule: a missing relation (stored
`ObjectDoesNotExist`) hides `email` without an error. -/
theorem C9_null_owner_hides_witness :
    s9b.allow_field "email" field0 = Except.ok false ∧
    alookup ([] : List (String × FieldObj)) "email" = Option.none :=
  ⟨(C9_null_owner_hides s9b "email" field0 ⟨userA, []⟩ "owner"
      rfl (by decide) (by decide) rfl rfl (by decide)).1,
   (C9_null_owner_hides s9b "email" field0 ⟨userA, []⟩ "owner"
      rfl (by decide) (by decide) rfl rfl (by decide)).2 [] (by decide)⟩

/-- C10 (implicit): owner filtering applies even in write contexts —
with `owner_attr = "*"`, no bound instance (`self.instance` is `None`)
and a non-superuser request, an `owner_fields` field is excluded from
`get_fields`: the resolved owner of the missing instance is `None`
itself and never equals the requesting user.  The write-case exemption
(`show_field` returning `True` when no instance is bound) applies only
to the optional-fields policy, not to the ownership check. -/
theorem C10_owner_filter_in_write_context (s : OptSerializer) (nm : String)
    (f : FieldObj) (req : Request)
    (hoa : s.meta.owner_attr = some "*")
    (hin : s.instance_ = PyRef.rNone)
    (hreq : s.context_request = some req)
    (hsu : req.user.is_superuser = false)
    (hof : nm ∈ ownerFieldsView s.meta) :
    s.show_field nm f = true ∧
    s.allow_field nm f = Except.ok false ∧
    (∀ fs, s.get_fields = Except.ok fs → alookup fs nm = Option.none) := by
  have hshow : s.show_field nm f = true := by
    unfold OptSerializer.show_field
    rw [if_pos (by rw [hin]; decide)]
  have hown : s.get_owner_of s.instance_ = Except.ok PyRef.rNone := by
    unfold OptSerializer.get_owner_of
    rw [hoa, hin]
    simp
  have hallow : ∀ f', s.allow_field nm f' = Except.ok false := fun f' =>
    allow_field_non_owner s nm f' req PyRef.rNone hreq hsu hof hown
      (fun h => PyRef.noConfusion h)
  exact ⟨hshow, hallow f,
    fun fs hfs => alookup_filterFields_none s nm hallow s.declared_fields fs hfs⟩

/-- Witness for C10 at a concrete write-context serializer. -/
theorem C10_owner_filter_in_write_context_witness :
    s10.show_field "email" field0 = true ∧
    s10.allow_field "email" field0 = Except.ok false ∧
    alookup ([] : List (String × FieldObj)) "email" = Option.none :=
  ⟨(C10_owner_filter_in_write_context s10 "email" field0 ⟨userA, []⟩
      rfl rfl rfl rfl (by decide)).1,
   (C10_owner_filter_in_write_context s10 "email" field0 ⟨userA, []⟩
      rfl rfl rfl rfl (by decide)).2.1,
   (C10_owner_filter_in_write_context s10 "email" field0 ⟨userA, []⟩
      rfl rfl rfl rfl (by decide)).2.2 [] (by decide)⟩

end RestToolbox
